import Mathlib

/-!
# Verification of the restaurant reservation engine

A shallow embedding of the availability/allocation engine of the
`Folexy13/resturant` repository: time utilities, table catalog, booking
ledger with lifecycle transitions, availability cache and waitlist, as
implemented in `src/services/ReservationService.ts`,
`src/services/CacheService.ts`, the table service, the waitlist service
and the entity classes.  Repositories (TypeORM) are modelled as lists,
`AppError` throws as `Except`, and wall-clock "HH:MM" strings as
hour/minute pairs (the code parses every such string into hours and
minutes and formats back zero-padded, so the pair is the string's exact
content).  `new Date()` timestamps are threaded as an explicit `now`
parameter.
-/

/-- A wall-clock "HH:MM" string, represented by its parsed fields.
All source helpers split the string into `hours` and `minutes`. -/
structure TimeOfDay where
  hours : Nat
  minutes : Nat
deriving DecidableEq, Repr

/-- `timeToMinutes` / the local `toMinutes` helpers:
`h * 60 + m` minutes since midnight. -/
def toMinutes (t : TimeOfDay) : Nat :=
  t.hours * 60 + t.minutes

/-- The local `toTimeString` helper of `generateTimeSlots`:
formats a minute count as "HH:MM" with `h = minutes / 60 % 24`. -/
def toTimeString (minutes : Nat) : TimeOfDay :=
  ⟨minutes / 60 % 24, minutes % 60⟩

/-- `ReservationService.timeRangesOverlap`: half-open overlap test on
minutes-of-day, `s1 < e2 && s2 < e1`. -/
def timeRangesOverlap (start1 end1 start2 end2 : TimeOfDay) : Bool :=
  decide (toMinutes start1 < toMinutes end2) && decide (toMinutes start2 < toMinutes end1)

/-- `ReservationService.calculateEndTime`: start plus duration, hours
wrapped modulo 24. -/
def calculateEndTime (startTime : TimeOfDay) (durationMinutes : Nat) : TimeOfDay :=
  let totalMinutes := startTime.hours * 60 + startTime.minutes + durationMinutes
  ⟨totalMinutes / 60 % 24, totalMinutes % 60⟩

/-- `config.peakHours` (`src/config`): peak start hour, peak end hour and
the maximum duration during peak hours. -/
structure PeakHoursConfig where
  start : Nat
  «end» : Nat
  maxDuration : Nat
deriving DecidableEq, Repr

/-- `ReservationService.adjustDurationForPeakHours`: if the start hour
lies in `[start, end)` the duration is capped at `maxDuration`. -/
def adjustDurationForPeakHours (cfg : PeakHoursConfig) (startTime : TimeOfDay)
    (durationMinutes : Nat) : Nat :=
  if cfg.start ≤ startTime.hours ∧ startTime.hours < cfg.«end» then
    min durationMinutes cfg.maxDuration
  else
    durationMinutes

/-- The `while` loop of `ReservationService.generateTimeSlots`, with an
explicit iteration budget (`fuel`).  The source loop advances by
`intervalMinutes` each pass; any fuel of at least
`adjustedClosing + 1 - openingMinutes` is enough when the interval is
positive. -/
def generateTimeSlotsAux (durationMinutes intervalMinutes : Nat) :
    Nat → Nat → Nat → List (TimeOfDay × TimeOfDay)
  | 0, _, _ => []
  | fuel + 1, openingMinutes, adjustedClosing =>
    if openingMinutes + durationMinutes ≤ adjustedClosing then
      (toTimeString openingMinutes, toTimeString (openingMinutes + durationMinutes)) ::
        generateTimeSlotsAux durationMinutes intervalMinutes fuel
          (openingMinutes + intervalMinutes) adjustedClosing
    else
      []

/-- The `adjustedClosing` computation of `generateTimeSlots`: the closing
minute count, pushed past midnight when it precedes the opening. -/
def adjClose (openingTime closingTime : TimeOfDay) : Nat :=
  if toMinutes closingTime < toMinutes openingTime then
    toMinutes closingTime + 24 * 60
  else
    toMinutes closingTime

/-- `ReservationService.generateTimeSlots`: slots of the given duration
starting at the opening time, stepping by the interval, while the slot
end does not pass the (midnight-adjusted) closing time. -/
def generateTimeSlots (openingTime closingTime : TimeOfDay)
    (durationMinutes intervalMinutes : Nat) : List (TimeOfDay × TimeOfDay) :=
  generateTimeSlotsAux durationMinutes intervalMinutes
    (adjClose openingTime closingTime + 1)
    (toMinutes openingTime) (adjClose openingTime closingTime)

/-- Number of slots the loop emits from start `s` up to adjusted close `c`. -/
def slotCount (s c durationMinutes intervalMinutes : Nat) : Nat :=
  if s + durationMinutes ≤ c then (c - (s + durationMinutes)) / intervalMinutes + 1 else 0

/-! ## Entities (`src/entities`) -/

/-- `ReservationStatus` enum. -/
inductive ReservationStatus where
  | pending
  | confirmed
  | seated
  | completed
  | cancelled
  | noShow
deriving DecidableEq, Repr

/-- The `Reservation` entity, restricted to the fields the allocation
logic reads or writes (customer contact fields and audit timestamps are
opaque to the engine). -/
structure Reservation where
  id : Nat
  restaurantId : Nat
  tableId : Nat
  partySize : Nat
  reservationDate : Nat
  startTime : TimeOfDay
  endTime : TimeOfDay
  durationMinutes : Nat
  status : ReservationStatus
  cancellationReason : Option String
deriving DecidableEq, Repr

/-- `Reservation.canBeCancelled`: PENDING or CONFIRMED. -/
def Reservation.canBeCancelled (r : Reservation) : Bool :=
  r.status == .pending || r.status == .confirmed

/-- `Reservation.canBeModified`: PENDING or CONFIRMED. -/
def Reservation.canBeModified (r : Reservation) : Bool :=
  r.status == .pending || r.status == .confirmed

/-- The `Table` entity. -/
structure Table where
  id : Nat
  restaurantId : Nat
  tableNumber : Nat
  capacity : Nat
  minCapacity : Nat
  isActive : Bool
deriving DecidableEq, Repr

/-- `Table.canAccommodate`: `minCapacity <= partySize <= capacity`. -/
def Table.canAccommodate (t : Table) (partySize : Nat) : Bool :=
  decide (t.minCapacity ≤ partySize) && decide (partySize ≤ t.capacity)

/-- `Table.getFitScore`: `capacity - partySize` when the table
accommodates the party, `Infinity` (here `none`) otherwise. -/
def Table.getFitScore (t : Table) (partySize : Nat) : Option Nat :=
  if t.canAccommodate partySize then some (t.capacity - partySize) else none

/-- The `Restaurant` entity, restricted to the fields the engine reads. -/
structure Restaurant where
  id : Nat
  openingTime : TimeOfDay
  closingTime : TimeOfDay
  isActive : Bool
deriving DecidableEq, Repr

/-- `Restaurant.isTimeRangeValid`: both ends of the range within
operating hours, with a special case when closing precedes opening
(crosses midnight). -/
def Restaurant.isTimeRangeValid (r : Restaurant) (startTime endTime : TimeOfDay) : Bool :=
  let startValue := toMinutes startTime
  let endValue := toMinutes endTime
  let openingValue := toMinutes r.openingTime
  let closingValue := toMinutes r.closingTime
  if closingValue < openingValue then
    (decide (openingValue ≤ startValue) || decide (startValue < closingValue)) &&
      (decide (openingValue ≤ endValue) || decide (endValue ≤ closingValue))
  else
    decide (openingValue ≤ startValue) && decide (endValue ≤ closingValue)

/-- `WaitlistStatus` enum. -/
inductive WaitlistStatus where
  | waiting
  | notified
  | seated
  | expired
  | cancelled
deriving DecidableEq, Repr

/-- The `Waitlist` entity, restricted to the fields the promotion logic
reads or writes.  `createdAt` is the FIFO ordering key. -/
structure Waitlist where
  id : Nat
  restaurantId : Nat
  partySize : Nat
  requestedDate : Nat
  preferredStartTime : TimeOfDay
  preferredEndTime : TimeOfDay
  durationMinutes : Nat
  status : WaitlistStatus
  notificationCount : Nat
  lastNotifiedAt : Option Nat
  convertedReservationId : Option Nat
  createdAt : Nat
deriving DecidableEq, Repr

/-- `Waitlist.canBeNotified`: WAITING only. -/
def Waitlist.canBeNotified (w : Waitlist) : Bool :=
  w.status == .waiting

/-- `Waitlist.isValid`: WAITING or NOTIFIED. -/
def Waitlist.isValid (w : Waitlist) : Bool :=
  w.status == .waiting || w.status == .notified

/-! ## Availability results and the cache (`CacheService`) -/

/-- The table projection pushed into a slot's `availableTables`. -/
structure TableSummary where
  id : Nat
  tableNumber : Nat
  capacity : Nat
deriving DecidableEq, Repr

/-- One entry of `suggestedTables`. -/
structure SuggestedTable where
  id : Nat
  tableNumber : Nat
  capacity : Nat
  fitScore : Option Nat
deriving DecidableEq, Repr

/-- The `TimeSlot` interface of `ReservationService`. -/
structure TimeSlot where
  startTime : TimeOfDay
  endTime : TimeOfDay
  availableTables : List TableSummary
deriving DecidableEq, Repr

/-- The `AvailabilityResult` interface of `ReservationService`. -/
structure AvailabilityResult where
  date : Nat
  partySize : Nat
  durationMinutes : Nat
  availableSlots : List TimeSlot
  suggestedTables : List SuggestedTable
deriving DecidableEq, Repr

/-- One Redis key-value pair written by `CacheService.setAvailability`;
the key is `availability:restaurantId:date:partySize:durationMinutes`. -/
structure CacheEntry where
  restaurantId : Nat
  date : Nat
  partySize : Nat
  durationMinutes : Nat
  value : AvailabilityResult
deriving DecidableEq, Repr

/-- The Redis store, as the set of live availability keys. -/
abbrev Cache := List CacheEntry

namespace CacheService

/-- Does an entry carry exactly this availability key? -/
def keyMatches (e : CacheEntry) (restaurantId date partySize durationMinutes : Nat) : Bool :=
  e.restaurantId == restaurantId && e.date == date &&
    e.partySize == partySize && e.durationMinutes == durationMinutes

/-- `CacheService.getAvailability`: exact key lookup. -/
def getAvailability (cache : Cache) (restaurantId date partySize durationMinutes : Nat) :
    Option AvailabilityResult :=
  (cache.find? fun e => keyMatches e restaurantId date partySize durationMinutes).map
    (fun e => e.value)

/-- `CacheService.setAvailability`: `SETEX` on the exact key (overwrites
any previous value under the same key). -/
def setAvailability (cache : Cache) (restaurantId date partySize durationMinutes : Nat)
    (data : AvailabilityResult) : Cache :=
  ⟨restaurantId, date, partySize, durationMinutes, data⟩ ::
    cache.filter fun e => !keyMatches e restaurantId date partySize durationMinutes

/-- `CacheService.invalidateAvailability`: deletes every key matching the
pattern `availability:restaurantId:date:*`. -/
def invalidateAvailability (cache : Cache) (restaurantId date : Nat) : Cache :=
  cache.filter fun e => !(e.restaurantId == restaurantId && e.date == date)

end CacheService

/-! ## The table catalog (`TableService`) -/

namespace TableService

/-- `TableService.findTablesForPartySize`: active tables of the
restaurant with `minCapacity <= partySize <= capacity`, ordered by
capacity ascending (`ORDER BY table.capacity ASC`). -/
def findTablesForPartySize (tables : List Table) (restaurantId partySize : Nat) :
    List Table :=
  List.insertionSort (fun t1 t2 => t1.capacity ≤ t2.capacity)
    (tables.filter fun t =>
      t.restaurantId == restaurantId && t.isActive &&
        decide (partySize ≤ t.capacity) && decide (t.minCapacity ≤ partySize))

/-- `TableService.findOptimalTable`: the first table of
`findTablesForPartySize`, `null` when there is none. -/
def findOptimalTable (tables : List Table) (restaurantId partySize : Nat) : Option Table :=
  (findTablesForPartySize tables restaurantId partySize).head?

end TableService

/-! ## The booking ledger (`ReservationService`) -/

/-- The `AppError` values thrown by the engine, by their message. -/
inductive AppError where
  | restaurantNotFound
  | restaurantInactive
  | outsideOperatingHours
  | peakHourDurationExceeded
  | noTablesAvailable
  | tableNotFound
  | tableWrongRestaurant
  | capacityMismatch
  | tableConflict
  | reservationNotFound
  | cannotBeModified (current : ReservationStatus)
  | invalidStateTransition (current target : ReservationStatus)
  | waitlistNotFound
  | cannotBeNotified
  | waitlistCannotBeModified (current : WaitlistStatus)
deriving DecidableEq, Repr

/-- Did an `Except` computation succeed? -/
def exceptIsOk {ε α : Type} : Except ε α → Bool
  | .ok _ => true
  | .error _ => false

/-- The persistent stores the engine touches, plus the id the database
would assign to the next inserted reservation. -/
structure ServiceState where
  restaurants : List Restaurant
  tables : List Table
  reservations : List Reservation
  cache : Cache
  nextId : Nat
deriving DecidableEq, Repr

/-- `CreateReservationDto`, restricted to the fields the engine reads. -/
structure CreateReservationDto where
  restaurantId : Nat
  tableId : Option Nat
  partySize : Nat
  reservationDate : Nat
  startTime : TimeOfDay
  durationMinutes : Nat
deriving DecidableEq, Repr

/-- `UpdateReservationDto`, restricted to the fields the engine reads
(there is no `status` field: `update` cannot change the lifecycle
state).  `none` models an absent/falsy field. -/
structure UpdateReservationDto where
  tableId : Option Nat
  partySize : Option Nat
  reservationDate : Option Nat
  startTime : Option TimeOfDay
  durationMinutes : Option Nat
deriving DecidableEq, Repr

namespace ReservationService

/-- `ReservationService.isTableAvailable`: no PENDING/CONFIRMED/SEATED
reservation on this table and date (minus the excluded id) overlaps the
requested window. -/
def isTableAvailable (reservations : List Reservation) (tableId date : Nat)
    (startTime endTime : TimeOfDay) (excludeReservationId : Option Nat) : Bool :=
  let matching := reservations.filter fun r =>
    r.tableId == tableId && r.reservationDate == date &&
      (r.status == .pending || r.status == .confirmed || r.status == .seated) &&
      (match excludeReservationId with
       | some excludeId => r.id != excludeId
       | none => true)
  !(matching.any fun r => timeRangesOverlap r.startTime r.endTime startTime endTime)

/-- `ReservationService.findAvailableTable`: scan the capacity-eligible
tables in best-fit order and return the first available one. -/
def findAvailableTable (tables : List Table) (reservations : List Reservation)
    (restaurantId date : Nat) (startTime endTime : TimeOfDay) (partySize : Nat) :
    Option Table :=
  (TableService.findTablesForPartySize tables restaurantId partySize).find? fun table =>
    isTableAvailable reservations table.id date startTime endTime none

/-- The tail of `create`: persist the reservation with status PENDING and
invalidate the availability cache for the restaurant and date. -/
def saveNew (s : ServiceState) (dto : CreateReservationDto) (tableId : Nat)
    (endTime : TimeOfDay) : ServiceState × Reservation :=
  let reservation : Reservation :=
    ⟨s.nextId, dto.restaurantId, tableId, dto.partySize, dto.reservationDate,
      dto.startTime, endTime, dto.durationMinutes, .pending, none⟩
  ({ s with
      reservations := s.reservations ++ [reservation],
      cache := CacheService.invalidateAvailability s.cache dto.restaurantId dto.reservationDate,
      nextId := s.nextId + 1 },
    reservation)

/-- `ReservationService.create`. -/
def create (cfg : PeakHoursConfig) (s : ServiceState) (dto : CreateReservationDto) :
    Except AppError (ServiceState × Reservation) :=
  match s.restaurants.find? (fun r => r.id == dto.restaurantId) with
  | none => .error .restaurantNotFound
  | some restaurant =>
    if !restaurant.isActive then .error .restaurantInactive
    else
      let endTime := calculateEndTime dto.startTime dto.durationMinutes
      if !restaurant.isTimeRangeValid dto.startTime endTime then .error .outsideOperatingHours
      else if adjustDurationForPeakHours cfg dto.startTime dto.durationMinutes ≠ dto.durationMinutes then
        .error .peakHourDurationExceeded
      else
        match dto.tableId with
        | none =>
          match findAvailableTable s.tables s.reservations dto.restaurantId
              dto.reservationDate dto.startTime endTime dto.partySize with
          | none => .error .noTablesAvailable
          | some availableTable => .ok (saveNew s dto availableTable.id endTime)
        | some tid =>
          match s.tables.find? (fun t => t.id == tid) with
          | none => .error .tableNotFound
          | some table =>
            if table.restaurantId ≠ dto.restaurantId then .error .tableWrongRestaurant
            else if !table.canAccommodate dto.partySize then .error .capacityMismatch
            else if !isTableAvailable s.reservations tid dto.reservationDate dto.startTime
                endTime none then
              .error .tableConflict
            else .ok (saveNew s dto tid endTime)

/-- `ReservationService.findById` (lookup only; the entity load). -/
def findById (s : ServiceState) (id : Nat) : Option Reservation :=
  s.reservations.find? fun r => r.id == id

/-- `reservationRepository.save` on an existing row: replace by primary
key. -/
def saveReservation (s : ServiceState) (res : Reservation) : ServiceState :=
  { s with reservations := s.reservations.map fun r => if r.id == res.id then res else r }

/-- The tail of `update`: `Object.assign(reservation, {...dto, startTime,
endTime, durationMinutes})`, save, then the source's cache invalidation:
first the (new) `reservationDate`; then a second invalidation guarded by
`dto.reservationDate !== reservation.reservationDate` — evaluated AFTER
the assignment has already overwritten `reservation.reservationDate`. -/
def saveUpdated (s : ServiceState) (dto : UpdateReservationDto) (reservation : Reservation)
    (startTime endTime : TimeOfDay) (durationMinutes : Nat) : ServiceState × Reservation :=
  let savedReservation := { reservation with
    tableId := dto.tableId.getD reservation.tableId,
    partySize := dto.partySize.getD reservation.partySize,
    reservationDate := dto.reservationDate.getD reservation.reservationDate,
    startTime := startTime,
    endTime := endTime,
    durationMinutes := durationMinutes }
  let s1 := saveReservation s savedReservation
  let cache1 := CacheService.invalidateAvailability s1.cache savedReservation.restaurantId
    (dto.reservationDate.getD reservation.reservationDate)
  let cache2 :=
    match dto.reservationDate with
    | some d =>
      if d ≠ savedReservation.reservationDate then
        CacheService.invalidateAvailability cache1 savedReservation.restaurantId
          savedReservation.reservationDate
      else cache1
    | none => cache1
  ({ s1 with cache := cache2 }, savedReservation)

/-- `ReservationService.update`. -/
def update (cfg : PeakHoursConfig) (s : ServiceState) (id : Nat)
    (dto : UpdateReservationDto) : Except AppError (ServiceState × Reservation) :=
  match findById s id with
  | none => .error .reservationNotFound
  | some reservation =>
    if !reservation.canBeModified then .error (.cannotBeModified reservation.status)
    else
      match s.restaurants.find? (fun r => r.id == reservation.restaurantId) with
      | none => .error .restaurantNotFound
      | some restaurant =>
        let startTime := dto.startTime.getD reservation.startTime
        let durationMinutes := dto.durationMinutes.getD reservation.durationMinutes
        let endTime := calculateEndTime startTime durationMinutes
        let reservationDate := dto.reservationDate.getD reservation.reservationDate
        let partySize := dto.partySize.getD reservation.partySize
        let tableId := dto.tableId.getD reservation.tableId
        if !restaurant.isTimeRangeValid startTime endTime then .error .outsideOperatingHours
        else if adjustDurationForPeakHours cfg startTime durationMinutes ≠ durationMinutes then
          .error .peakHourDurationExceeded
        else if dto.tableId.isSome || dto.startTime.isSome || dto.durationMinutes.isSome ||
            dto.reservationDate.isSome then
          match s.tables.find? (fun t => t.id == tableId) with
          | none => .error .tableNotFound
          | some table =>
            if !table.canAccommodate partySize then .error .capacityMismatch
            else if !isTableAvailable s.reservations tableId reservationDate startTime endTime
                (some id) then
              .error .tableConflict
            else .ok (saveUpdated s dto reservation startTime endTime durationMinutes)
        else .ok (saveUpdated s dto reservation startTime endTime durationMinutes)

/-- `ReservationService.cancel`. -/
def cancel (s : ServiceState) (id : Nat) (reason : Option String) :
    Except AppError (ServiceState × Reservation) :=
  match findById s id with
  | none => .error .reservationNotFound
  | some reservation =>
    if !reservation.canBeCancelled then
      .error (.invalidStateTransition reservation.status .cancelled)
    else
      let savedReservation :=
        { reservation with status := .cancelled, cancellationReason := reason }
      let s1 := saveReservation s savedReservation
      .ok ({ s1 with
              cache := CacheService.invalidateAvailability s1.cache
                reservation.restaurantId reservation.reservationDate },
        savedReservation)

/-- `ReservationService.confirm`. -/
def confirm (s : ServiceState) (id : Nat) : Except AppError (ServiceState × Reservation) :=
  match findById s id with
  | none => .error .reservationNotFound
  | some reservation =>
    if reservation.status ≠ .pending then
      .error (.invalidStateTransition reservation.status .confirmed)
    else
      let savedReservation := { reservation with status := .confirmed }
      .ok (saveReservation s savedReservation, savedReservation)

/-- `ReservationService.markAsSeated`. -/
def markAsSeated (s : ServiceState) (id : Nat) : Except AppError (ServiceState × Reservation) :=
  match findById s id with
  | none => .error .reservationNotFound
  | some reservation =>
    if reservation.status ≠ .confirmed then
      .error (.invalidStateTransition reservation.status .seated)
    else
      let savedReservation := { reservation with status := .seated }
      .ok (saveReservation s savedReservation, savedReservation)

/-- `ReservationService.markAsCompleted`. -/
def markAsCompleted (s : ServiceState) (id : Nat) :
    Except AppError (ServiceState × Reservation) :=
  match findById s id with
  | none => .error .reservationNotFound
  | some reservation =>
    if reservation.status ≠ .seated then
      .error (.invalidStateTransition reservation.status .completed)
    else
      let savedReservation := { reservation with status := .completed }
      .ok (saveReservation s savedReservation, savedReservation)

/-- `ReservationService.markAsNoShow`. -/
def markAsNoShow (s : ServiceState) (id : Nat) :
    Except AppError (ServiceState × Reservation) :=
  match findById s id with
  | none => .error .reservationNotFound
  | some reservation =>
    if !(reservation.status == .pending || reservation.status == .confirmed) then
      .error (.invalidStateTransition reservation.status .noShow)
    else
      let savedReservation := { reservation with status := .noShow }
      let s1 := saveReservation s savedReservation
      .ok ({ s1 with
              cache := CacheService.invalidateAvailability s1.cache
                reservation.restaurantId reservation.reservationDate },
        savedReservation)

/-- `ReservationService.getAvailability`. -/
def getAvailability (s : ServiceState) (restaurantId date partySize durationMinutes : Nat) :
    Except AppError (ServiceState × AvailabilityResult) :=
  match CacheService.getAvailability s.cache restaurantId date partySize durationMinutes with
  | some cached => .ok (s, cached)
  | none =>
    match s.restaurants.find? (fun r => r.id == restaurantId) with
    | none => .error .restaurantNotFound
    | some restaurant =>
      let suitableTables := TableService.findTablesForPartySize s.tables restaurantId partySize
      if suitableTables.length == 0 then
        .ok (s, ⟨date, partySize, durationMinutes, [], []⟩)
      else
        let reservations := s.reservations.filter fun r =>
          r.restaurantId == restaurantId && r.reservationDate == date &&
            (r.status == .pending || r.status == .confirmed || r.status == .seated)
        let slots := generateTimeSlots restaurant.openingTime restaurant.closingTime
          durationMinutes 30
        let availableSlots := (slots.map fun slot =>
            TimeSlot.mk slot.1 slot.2
              ((suitableTables.filter fun table =>
                  !(reservations.any fun r =>
                    r.tableId == table.id &&
                      timeRangesOverlap r.startTime r.endTime slot.1 slot.2)).map
                fun table => ⟨table.id, table.tableNumber, table.capacity⟩)).filter
          fun ts => decide (0 < ts.availableTables.length)
        let suggestedTables := (suitableTables.take 3).map fun table =>
          SuggestedTable.mk table.id table.tableNumber table.capacity
            (table.getFitScore partySize)
        let result : AvailabilityResult :=
          ⟨date, partySize, durationMinutes, availableSlots, suggestedTables⟩
        .ok ({ s with
                cache := CacheService.setAvailability s.cache restaurantId date partySize
                  durationMinutes result },
          result)

end ReservationService

/-! ## The waitlist (`WaitlistService`) -/

/-- The slot payload passed to `notifyAvailability` and the waitlist
notification. -/
structure AvailableSlot where
  date : Nat
  startTime : TimeOfDay
  endTime : TimeOfDay
deriving DecidableEq, Repr

namespace WaitlistService

/-- `waitlistRepository.save` on an existing row: replace by primary
key. -/
def saveWaitlist (entries : List Waitlist) (saved : Waitlist) : List Waitlist :=
  entries.map fun w => if w.id == saved.id then saved else w

/-- `WaitlistService.getWaitingEntriesForSlot`: WAITING entries of the
restaurant and date whose preferred window contains the slot, with the
party-size filter applied only when the argument is present and truthy,
ordered by `createdAt` ascending. -/
def getWaitingEntriesForSlot (entries : List Waitlist) (restaurantId date : Nat)
    (startTime endTime : TimeOfDay) (partySize : Option Nat) : List Waitlist :=
  List.insertionSort (fun w1 w2 => w1.createdAt ≤ w2.createdAt)
    (entries.filter fun w =>
      w.restaurantId == restaurantId && w.requestedDate == date &&
        w.status == .waiting &&
        decide (toMinutes w.preferredStartTime ≤ toMinutes startTime) &&
        decide (toMinutes endTime ≤ toMinutes w.preferredEndTime) &&
        (match partySize with
         | some p => if p ≠ 0 then decide (w.partySize ≤ p) else true
         | none => true))

/-- `WaitlistService.notifyAvailability`: only a WAITING entry can be
notified; it becomes NOTIFIED, its notification count is incremented,
`lastNotifiedAt` is stamped with the current instant, and the waitlist
notification for the offered slot is dispatched.  Returns the updated
store, the saved entry and the notifications sent. -/
def notifyAvailability (entries : List Waitlist) (now : Nat) (id : Nat)
    (availableSlot : AvailableSlot) :
    Except AppError (List Waitlist × Waitlist × List (Nat × AvailableSlot)) :=
  match entries.find? (fun w => w.id == id) with
  | none => .error .waitlistNotFound
  | some waitlistEntry =>
    if !waitlistEntry.canBeNotified then .error .cannotBeNotified
    else
      let saved := { waitlistEntry with
        status := .notified,
        notificationCount := waitlistEntry.notificationCount + 1,
        lastNotifiedAt := some now }
      .ok (saveWaitlist entries saved, saved, [(waitlistEntry.id, availableSlot)])

/-- `WaitlistService.convertToReservation`: sets the status to SEATED
and records the reservation id (the source performs no status check). -/
def convertToReservation (entries : List Waitlist) (id reservationId : Nat) :
    Except AppError (List Waitlist × Waitlist) :=
  match entries.find? (fun w => w.id == id) with
  | none => .error .waitlistNotFound
  | some waitlistEntry =>
    let saved := { waitlistEntry with
      status := .seated,
      convertedReservationId := some reservationId }
    .ok (saveWaitlist entries saved, saved)

/-- `WaitlistService.markAsExpired`: NOTIFIED → EXPIRED only. -/
def markAsExpired (entries : List Waitlist) (id : Nat) :
    Except AppError (List Waitlist × Waitlist) :=
  match entries.find? (fun w => w.id == id) with
  | none => .error .waitlistNotFound
  | some waitlistEntry =>
    if waitlistEntry.status ≠ .notified then .error .cannotBeNotified
    else
      let saved := { waitlistEntry with status := .expired }
      .ok (saveWaitlist entries saved, saved)

/-- `WaitlistService.processWaitlistForCancellation`: find the FIFO
candidates for the freed slot; if none, return `null` without touching
the store; otherwise notify the first candidate. -/
def processWaitlistForCancellation (entries : List Waitlist) (now : Nat)
    (restaurantId date : Nat) (startTime endTime : TimeOfDay) (tableCapacity : Nat) :
    Except AppError (List Waitlist × Option Waitlist × List (Nat × AvailableSlot)) :=
  let waitingEntries :=
    getWaitingEntriesForSlot entries restaurantId date startTime endTime (some tableCapacity)
  match waitingEntries with
  | [] => .ok (entries, none, [])
  | entry :: _ =>
    match notifyAvailability entries now entry.id ⟨date, startTime, endTime⟩ with
    | .ok (entries1, _, sent) => .ok (entries1, some entry, sent)
    | .error e => .error e

end WaitlistService

/-! ## Operation sequences over the booking ledger -/

/-- One completed engine call against the reservation store. -/
inductive Op where
  | create (dto : CreateReservationDto)
  | update (id : Nat) (dto : UpdateReservationDto)
  | cancel (id : Nat) (reason : Option String)
  | confirm (id : Nat)
  | markAsSeated (id : Nat)
  | markAsCompleted (id : Nat)
  | markAsNoShow (id : Nat)
deriving Repr

/-- Run one call: a successful call commits its new state, a failed call
leaves the stores untouched (the thrown `AppError` aborts before any
write). -/
def applyOp (cfg : PeakHoursConfig) (s : ServiceState) (op : Op) : ServiceState :=
  match op with
  | .create dto =>
    match ReservationService.create cfg s dto with
    | .ok (s1, _) => s1
    | .error _ => s
  | .update id dto =>
    match ReservationService.update cfg s id dto with
    | .ok (s1, _) => s1
    | .error _ => s
  | .cancel id reason =>
    match ReservationService.cancel s id reason with
    | .ok (s1, _) => s1
    | .error _ => s
  | .confirm id =>
    match ReservationService.confirm s id with
    | .ok (s1, _) => s1
    | .error _ => s
  | .markAsSeated id =>
    match ReservationService.markAsSeated s id with
    | .ok (s1, _) => s1
    | .error _ => s
  | .markAsCompleted id =>
    match ReservationService.markAsCompleted s id with
    | .ok (s1, _) => s1
    | .error _ => s
  | .markAsNoShow id =>
    match ReservationService.markAsNoShow s id with
    | .ok (s1, _) => s1
    | .error _ => s

/-- Run a sequence of calls. -/
def applyOps (cfg : PeakHoursConfig) (s : ServiceState) (ops : List Op) : ServiceState :=
  ops.foldl (applyOp cfg) s

/-- A reservation counts against table availability while PENDING,
CONFIRMED or SEATED. -/
def activeStatus (st : ReservationStatus) : Bool :=
  st == .pending || st == .confirmed || st == .seated

/-- Two reservations are double-booked when they are distinct rows on the
same table and date, both non-terminal, with overlapping
`[startTime, endTime)` windows (per `timeRangesOverlap`). -/
def reservationsConflict (r1 r2 : Reservation) : Bool :=
  decide (r1.id ≠ r2.id) && r1.tableId == r2.tableId &&
    r1.reservationDate == r2.reservationDate &&
    activeStatus r1.status && activeStatus r2.status &&
    timeRangesOverlap r1.startTime r1.endTime r2.startTime r2.endTime

/-- The core safety property: no pair of reservations in the ledger is
double-booked. -/
def noDoubleBooking (reservations : List Reservation) : Prop :=
  ∀ r1 ∈ reservations, ∀ r2 ∈ reservations, reservationsConflict r1 r2 = false

instance : DecidablePred noDoubleBooking := fun l =>
  inferInstanceAs (Decidable (∀ r1 ∈ l, ∀ r2 ∈ l, reservationsConflict r1 r2 = false))

/-- Ledger well-formedness maintained by the database layer and the
engine: primary keys are distinct and below the next assigned id, and
every row's `endTime` is the one `create`/`update` derived from its
start time and duration. -/
def LedgerWF (s : ServiceState) : Prop :=
  s.reservations.Pairwise (fun r1 r2 => r1.id ≠ r2.id) ∧
    (∀ r ∈ s.reservations, r.id < s.nextId) ∧
    (∀ r ∈ s.reservations, r.endTime = calculateEndTime r.startTime r.durationMinutes)

instance : DecidablePred LedgerWF := fun s => by
  unfold LedgerWF
  infer_instance

def EngineInv (s : ServiceState) : Prop := LedgerWF s ∧ noDoubleBooking s.reservations

instance : DecidablePred EngineInv := fun s => by
  unfold EngineInv
  infer_instance

def demoCfg : PeakHoursConfig := ⟨18, 21, 90⟩

def demoRestaurant : Restaurant := ⟨1, ⟨10, 0⟩, ⟨22, 0⟩, true⟩

def demoTable : Table := ⟨1, 1, 1, 4, 1, true⟩

def demoState : ServiceState := ⟨[demoRestaurant], [demoTable], [], [], 0⟩

def demoOps : List Op :=
  [Op.create ⟨1, none, 2, 7, ⟨19, 0⟩, 90⟩, Op.confirm 0,
    Op.create ⟨1, none, 2, 7, ⟨12, 0⟩, 60⟩]

def demoSeatedRes : Reservation := ⟨1, 1, 1, 2, 7, ⟨19, 0⟩, ⟨20, 30⟩, 90, .seated, none⟩

def demoSeatedState : ServiceState := ⟨[demoRestaurant], [demoTable], [demoSeatedRes], [], 2⟩

instance : IsTotal Table (fun t1 t2 => t1.capacity ≤ t2.capacity) :=
  ⟨fun a b => Nat.le_total a.capacity b.capacity⟩

instance : IsTrans Table (fun t1 t2 => t1.capacity ≤ t2.capacity) :=
  ⟨fun _ _ _ hab hbc => Nat.le_trans hab hbc⟩

instance : IsTotal Waitlist (fun w1 w2 => w1.createdAt ≤ w2.createdAt) :=
  ⟨fun a b => Nat.le_total a.createdAt b.createdAt⟩

instance : IsTrans Waitlist (fun w1 w2 => w1.createdAt ≤ w2.createdAt) :=
  ⟨fun _ _ _ hab hbc => Nat.le_trans hab hbc⟩

def demoW1 : Waitlist := ⟨1, 1, 2, 7, ⟨18, 0⟩, ⟨21, 0⟩, 90, .waiting, 0, none, none, 10⟩

def demoW2 : Waitlist := ⟨2, 1, 2, 7, ⟨18, 0⟩, ⟨21, 0⟩, 90, .waiting, 0, none, none, 20⟩

def demoWaitlist : List Waitlist := [demoW1, demoW2]

def c7Res : Reservation := ⟨1, 1, 1, 2, 5, ⟨12, 0⟩, ⟨13, 0⟩, 60, .pending, none⟩

def c7CacheVal : AvailabilityResult := ⟨5, 2, 90, [], []⟩

def c7State : ServiceState :=
  ⟨[demoRestaurant], [demoTable], [c7Res], [⟨1, 5, 2, 90, c7CacheVal⟩], 2⟩

def c7Dto : UpdateReservationDto := ⟨none, none, some 6, none, none⟩

def c8State : ServiceState := ⟨[demoRestaurant], [], [], [], 0⟩

def c9Entry : Waitlist := ⟨1, 1, 2, 7, ⟨18, 0⟩, ⟨21, 0⟩, 90, .cancelled, 0, none, none, 10⟩

def c10Restaurant : Restaurant := ⟨2, ⟨22, 0⟩, ⟨2, 0⟩, true⟩

def c10Table : Table := ⟨2, 2, 1, 4, 1, true⟩

def c10State : ServiceState := ⟨[c10Restaurant], [c10Table], [], [], 0⟩

def c10Dto1 : CreateReservationDto := ⟨2, some 2, 2, 7, ⟨23, 0⟩, 120⟩

def c10Dto2 : CreateReservationDto := ⟨2, some 2, 2, 7, ⟨23, 30⟩, 60⟩

def c10State1 : ServiceState := applyOp demoCfg c10State (.create c10Dto1)

theorem generateTimeSlotsAux_eq (d i : Nat) (hi : 0 < i) :
    ∀ (fuel s c : Nat), c + 1 ≤ fuel + s →
      generateTimeSlotsAux d i fuel s c =
        (List.range (slotCount s c d i)).map
          (fun n => (toTimeString (s + i * n), toTimeString (s + i * n + d))) := by
  intro fuel
  induction fuel with
  | zero =>
    intro s c hc
    simp only [generateTimeSlotsAux]
    have hlt : ¬ (s + d ≤ c) := by omega
    simp [slotCount, hlt]
  | succ fuel ih =>
    intro s c hc
    simp only [generateTimeSlotsAux]
    by_cases h : s + d ≤ c
    · rw [if_pos h]
      rw [ih (s + i) c (by omega)]
      have hcount : slotCount s c d i = slotCount (s + i) c d i + 1 := by
        by_cases h2 : s + i + d ≤ c
        · have : c - (s + d) = (c - (s + i + d)) + i := by omega
          simp only [slotCount, if_pos h, if_pos h2, this,
            Nat.add_div_right _ hi]
        · have hlt : c - (s + d) < i := by omega
          simp only [slotCount, if_pos h, if_neg h2, Nat.div_eq_of_lt hlt]
      rw [hcount, List.range_succ_eq_map, List.map_cons, List.map_map]
      have htail : ∀ n ∈ List.range (slotCount (s + i) c d i),
          ((fun n => (toTimeString (s + i * n), toTimeString (s + i * n + d))) ∘ Nat.succ) n
            = (fun n => (toTimeString (s + i + i * n), toTimeString (s + i + i * n + d))) n := by
        intro n _
        have harg : s + i * (n + 1) = s + i + i * n := by ring
        simp [Function.comp, harg]
      rw [List.map_congr_left htail]
      simp
    · rw [if_neg h]
      simp [slotCount, h]

theorem generateTimeSlots_eq (o c : TimeOfDay) (d i : Nat) (hi : 0 < i) :
    generateTimeSlots o c d i =
      (List.range (slotCount (toMinutes o) (adjClose o c) d i)).map
        (fun n => (toTimeString (toMinutes o + i * n),
                   toTimeString (toMinutes o + i * n + d))) := by
  unfold generateTimeSlots
  exact generateTimeSlotsAux_eq d i hi _ _ _ (by omega)

/-! ## Invariant-preservation lemmas -/

theorem timeRangesOverlap_symm (s1 e1 s2 e2 : TimeOfDay) :
    timeRangesOverlap s1 e1 s2 e2 = timeRangesOverlap s2 e2 s1 e1 := by
  simp [timeRangesOverlap, Bool.and_comm]

theorem reservationsConflict_self (r : Reservation) :
    reservationsConflict r r = false := by
  simp [reservationsConflict]

theorem reservationsConflict_symm {r1 r2 : Reservation}
    (h : reservationsConflict r1 r2 = true) : reservationsConflict r2 r1 = true := by
  simp only [reservationsConflict, Bool.and_eq_true, decide_eq_true_eq, beq_iff_eq] at h ⊢
  obtain ⟨⟨⟨⟨⟨hid, htab⟩, hdate⟩, hst1⟩, hst2⟩, hov⟩ := h
  refine ⟨⟨⟨⟨⟨Ne.symm hid, htab.symm⟩, hdate.symm⟩, hst2⟩, hst1⟩, ?_⟩
  rw [timeRangesOverlap_symm]
  exact hov

theorem reservationsConflict_false_symm {r1 r2 : Reservation}
    (h : reservationsConflict r1 r2 = false) : reservationsConflict r2 r1 = false := by
  cases hb : reservationsConflict r2 r1 with
  | false => rfl
  | true =>
    have h2 := reservationsConflict_symm hb
    rw [h] at h2
    cases h2

/-- Status and window being equal, conflicts against a third row agree. -/
theorem reservationsConflict_congr {r r0 r1 : Reservation}
    (hid : r1.id = r0.id) (htab : r1.tableId = r0.tableId)
    (hdate : r1.reservationDate = r0.reservationDate)
    (hst : r1.startTime = r0.startTime) (het : r1.endTime = r0.endTime)
    (hstat : activeStatus r1.status = activeStatus r0.status) :
    reservationsConflict r r1 = reservationsConflict r r0 := by
  simp [reservationsConflict, hid, htab, hdate, hst, het, hstat]

/-- Appending a fresh reservation that overlaps no live row on its table
and date keeps the ledger conflict-free. -/
theorem noDoubleBooking_append (l : List Reservation) (res : Reservation)
    (h : noDoubleBooking l)
    (hfresh : ∀ r ∈ l, r.id ≠ res.id)
    (havail : ∀ r ∈ l, r.tableId = res.tableId → r.reservationDate = res.reservationDate →
      activeStatus r.status = true →
      timeRangesOverlap r.startTime r.endTime res.startTime res.endTime = false) :
    noDoubleBooking (l ++ [res]) := by
  have key : ∀ r ∈ l, reservationsConflict r res = false := by
    intro r hr
    cases hb : reservationsConflict r res with
    | false => rfl
    | true =>
      exfalso
      simp only [reservationsConflict, Bool.and_eq_true, decide_eq_true_eq,
        beq_iff_eq] at hb
      obtain ⟨⟨⟨⟨⟨_, htab⟩, hdate⟩, hact⟩, _⟩, hov⟩ := hb
      rw [havail r hr htab hdate hact] at hov
      cases hov
  intro a ha b hb
  rw [List.mem_append] at ha hb
  rcases ha with ha | ha <;> rcases hb with hb | hb
  · exact h a ha b hb
  · rw [List.mem_singleton] at hb
    subst hb
    exact key a ha
  · rw [List.mem_singleton] at ha
    subst ha
    exact reservationsConflict_false_symm (key b hb)
  · rw [List.mem_singleton] at ha hb
    subst ha; subst hb
    exact reservationsConflict_self _

/-- Replacing the rows keyed `id` by a row that conflicts with no other
row keeps the ledger conflict-free. -/
theorem noDoubleBooking_replace (l : List Reservation) (id : Nat) (res' : Reservation)
    (h : noDoubleBooking l)
    (hok : ∀ r ∈ l, r.id ≠ id → reservationsConflict r res' = false) :
    noDoubleBooking (l.map fun r => if r.id == id then res' else r) := by
  have memcase : ∀ a, a ∈ (l.map fun r => if r.id == id then res' else r) →
      a = res' ∨ (a ∈ l ∧ a.id ≠ id) := by
    intro a ha
    obtain ⟨r, hr, heq⟩ := List.mem_map.mp ha
    by_cases hid : r.id = id
    · left
      rw [← heq]
      simp [hid]
    · right
      have : a = r := by
        rw [← heq]
        simp [hid]
      subst this
      exact ⟨hr, hid⟩
  intro a ha b hb
  rcases memcase a ha with ha' | ⟨hal, haid⟩ <;> rcases memcase b hb with hb' | ⟨hbl, hbid⟩
  · subst ha'; subst hb'
    exact reservationsConflict_self _
  · subst ha'
    exact reservationsConflict_false_symm (hok b hbl hbid)
  · subst hb'
    exact hok a hal haid
  · exact h a hal b hbl

/-- What a positive `isTableAvailable` verdict says about every row. -/
theorem isTableAvailable_no_overlap {reservations : List Reservation} {tableId date : Nat}
    {startTime endTime : TimeOfDay} {exclude : Option Nat}
    (h : ReservationService.isTableAvailable reservations tableId date startTime endTime
      exclude = true) :
    ∀ r ∈ reservations, r.tableId = tableId → r.reservationDate = date →
      activeStatus r.status = true →
      (∀ eid, exclude = some eid → r.id ≠ eid) →
      timeRangesOverlap r.startTime r.endTime startTime endTime = false := by
  intro r hr htab hdate hact hexc
  unfold ReservationService.isTableAvailable at h
  rw [Bool.not_eq_true', List.any_eq_false] at h
  have hmem : r ∈ reservations.filter fun r =>
      r.tableId == tableId && r.reservationDate == date &&
        (r.status == .pending || r.status == .confirmed || r.status == .seated) &&
        (match exclude with
         | some excludeId => r.id != excludeId
         | none => true) := by
    rw [List.mem_filter]
    refine ⟨hr, ?_⟩
    have hstat : (r.status == ReservationStatus.pending || r.status == .confirmed ||
        r.status == .seated) = true := hact
    cases hx : exclude with
    | none => simp [htab, hdate, hstat]
    | some eid =>
      have := hexc eid hx
      simp [htab, hdate, hstat, this]
  have := h r hmem
  rwa [Bool.not_eq_true] at this

set_option maxHeartbeats 1000000 in
theorem create_ok_inversion {cfg : PeakHoursConfig} {s : ServiceState}
    {dto : CreateReservationDto} {s1 : ServiceState} {res : Reservation}
    (h : ReservationService.create cfg s dto = .ok (s1, res)) :
    s1.reservations = s.reservations ++ [res] ∧
      s1.nextId = s.nextId + 1 ∧
      res.id = s.nextId ∧
      res.status = .pending ∧
      res.startTime = dto.startTime ∧
      res.endTime = calculateEndTime dto.startTime dto.durationMinutes ∧
      res.durationMinutes = dto.durationMinutes ∧
      res.reservationDate = dto.reservationDate ∧
      ReservationService.isTableAvailable s.reservations res.tableId res.reservationDate
        res.startTime res.endTime none = true := by
  simp only [ReservationService.create] at h
  repeat' split at h
  all_goals try exact Except.noConfusion h
  all_goals unfold ReservationService.saveNew at h
  all_goals injection h with h2
  all_goals injection h2 with hs hres
  all_goals subst hs
  all_goals subst hres
  · rename_i x availableTable heqfind
    have hp := List.find?_some heqfind
    exact ⟨rfl, rfl, rfl, rfl, rfl, rfl, rfl, rfl, hp⟩
  · rename_i hcond
    simp only [Bool.not_eq_true, Bool.not_eq_false'] at hcond
    exact ⟨rfl, rfl, rfl, rfl, rfl, rfl, rfl, rfl, hcond⟩

set_option maxHeartbeats 1000000 in
theorem update_ok_inversion {cfg : PeakHoursConfig} {s : ServiceState} {id : Nat}
    {dto : UpdateReservationDto} {s1 : ServiceState} {res : Reservation}
    (h : ReservationService.update cfg s id dto = .ok (s1, res)) :
    ∃ reservation, ReservationService.findById s id = some reservation ∧
      reservation.canBeModified = true ∧
      res.id = reservation.id ∧
      res.status = reservation.status ∧
      res.startTime = dto.startTime.getD reservation.startTime ∧
      res.durationMinutes = dto.durationMinutes.getD reservation.durationMinutes ∧
      res.endTime = calculateEndTime res.startTime res.durationMinutes ∧
      res.reservationDate = dto.reservationDate.getD reservation.reservationDate ∧
      res.tableId = dto.tableId.getD reservation.tableId ∧
      s1.reservations = s.reservations.map (fun r => if r.id == res.id then res else r) ∧
      s1.nextId = s.nextId ∧
      ((dto.tableId.isSome || dto.startTime.isSome || dto.durationMinutes.isSome ||
          dto.reservationDate.isSome) = true →
        ReservationService.isTableAvailable s.reservations res.tableId res.reservationDate
          res.startTime res.endTime (some id) = true) := by
  simp only [ReservationService.update] at h
  repeat' split at h
  all_goals try exact Except.noConfusion h
  all_goals simp only [ReservationService.saveUpdated, ReservationService.saveReservation] at h
  all_goals injection h with h2
  all_goals injection h2 with hs hres
  all_goals subst hs
  all_goals subst hres
  · rename_i xr reservation hfind hmod xrest restaurant hfindr hhours hpeak hcond xt table
      hfindt hacc havail
    refine ⟨reservation, hfind, ?_, rfl, rfl, rfl, rfl, rfl, rfl, rfl, rfl, rfl, ?_⟩
    · simp only [Bool.not_eq_true, Bool.not_eq_false'] at hmod
      exact hmod
    · intro _
      simp only [Bool.not_eq_true, Bool.not_eq_false'] at havail
      exact havail
  · rename_i xr reservation hfind hmod xrest restaurant hfindr hhours hpeak hcond
    refine ⟨reservation, hfind, ?_, rfl, rfl, rfl, rfl, rfl, rfl, rfl, rfl, rfl, ?_⟩
    · simp only [Bool.not_eq_true, Bool.not_eq_false'] at hmod
      exact hmod
    · intro hc
      exact absurd hc hcond

theorem confirm_ok_inversion {s : ServiceState} {id : Nat} {s1 : ServiceState}
    {res : Reservation} (h : ReservationService.confirm s id = .ok (s1, res)) :
    ∃ reservation, ReservationService.findById s id = some reservation ∧
      reservation.status = .pending ∧
      res = { reservation with status := .confirmed } ∧
      s1.reservations = s.reservations.map (fun r => if r.id == res.id then res else r) ∧
      s1.nextId = s.nextId := by
  simp only [ReservationService.confirm] at h
  repeat' split at h
  all_goals try exact Except.noConfusion h
  simp only [ReservationService.saveReservation] at h
  injection h with h2
  injection h2 with hs hres
  subst hs
  subst hres
  rename_i xr reservation hfind hstat
  rw [not_not] at hstat
  exact ⟨reservation, hfind, hstat, rfl, rfl, rfl⟩

theorem markAsSeated_ok_inversion {s : ServiceState} {id : Nat} {s1 : ServiceState}
    {res : Reservation} (h : ReservationService.markAsSeated s id = .ok (s1, res)) :
    ∃ reservation, ReservationService.findById s id = some reservation ∧
      reservation.status = .confirmed ∧
      res = { reservation with status := .seated } ∧
      s1.reservations = s.reservations.map (fun r => if r.id == res.id then res else r) ∧
      s1.nextId = s.nextId := by
  simp only [ReservationService.markAsSeated] at h
  repeat' split at h
  all_goals try exact Except.noConfusion h
  simp only [ReservationService.saveReservation] at h
  injection h with h2
  injection h2 with hs hres
  subst hs
  subst hres
  rename_i xr reservation hfind hstat
  rw [not_not] at hstat
  exact ⟨reservation, hfind, hstat, rfl, rfl, rfl⟩

theorem markAsCompleted_ok_inversion {s : ServiceState} {id : Nat} {s1 : ServiceState}
    {res : Reservation} (h : ReservationService.markAsCompleted s id = .ok (s1, res)) :
    ∃ reservation, ReservationService.findById s id = some reservation ∧
      reservation.status = .seated ∧
      res = { reservation with status := .completed } ∧
      s1.reservations = s.reservations.map (fun r => if r.id == res.id then res else r) ∧
      s1.nextId = s.nextId := by
  simp only [ReservationService.markAsCompleted] at h
  repeat' split at h
  all_goals try exact Except.noConfusion h
  simp only [ReservationService.saveReservation] at h
  injection h with h2
  injection h2 with hs hres
  subst hs
  subst hres
  rename_i xr reservation hfind hstat
  rw [not_not] at hstat
  exact ⟨reservation, hfind, hstat, rfl, rfl, rfl⟩

theorem cancel_ok_inversion {s : ServiceState} {id : Nat} {reason : Option String}
    {s1 : ServiceState} {res : Reservation}
    (h : ReservationService.cancel s id reason = .ok (s1, res)) :
    ∃ reservation, ReservationService.findById s id = some reservation ∧
      reservation.canBeCancelled = true ∧
      res = { reservation with status := .cancelled, cancellationReason := reason } ∧
      s1.reservations = s.reservations.map (fun r => if r.id == res.id then res else r) ∧
      s1.nextId = s.nextId := by
  simp only [ReservationService.cancel] at h
  repeat' split at h
  all_goals try exact Except.noConfusion h
  simp only [ReservationService.saveReservation] at h
  injection h with h2
  injection h2 with hs hres
  subst hs
  subst hres
  rename_i xr reservation hfind hstat
  simp only [Bool.not_eq_true, Bool.not_eq_false'] at hstat
  exact ⟨reservation, hfind, hstat, rfl, rfl, rfl⟩

theorem markAsNoShow_ok_inversion {s : ServiceState} {id : Nat} {s1 : ServiceState}
    {res : Reservation} (h : ReservationService.markAsNoShow s id = .ok (s1, res)) :
    ∃ reservation, ReservationService.findById s id = some reservation ∧
      (reservation.status == .pending || reservation.status == .confirmed) = true ∧
      res = { reservation with status := .noShow } ∧
      s1.reservations = s.reservations.map (fun r => if r.id == res.id then res else r) ∧
      s1.nextId = s.nextId := by
  simp only [ReservationService.markAsNoShow] at h
  repeat' split at h
  all_goals try exact Except.noConfusion h
  simp only [ReservationService.saveReservation] at h
  injection h with h2
  injection h2 with hs hres
  subst hs
  subst hres
  rename_i xr reservation hfind hstat
  simp only [Bool.not_eq_true, Bool.not_eq_false'] at hstat
  exact ⟨reservation, hfind, hstat, rfl, rfl, rfl⟩

theorem findById_some_mem {s : ServiceState} {id : Nat} {reservation : Reservation}
    (h : ReservationService.findById s id = some reservation) :
    reservation ∈ s.reservations ∧ reservation.id = id := by
  unfold ReservationService.findById at h
  refine ⟨List.mem_of_find?_eq_some h, ?_⟩
  have := List.find?_some h
  simpa using this

theorem inv_replace {s s1 : ServiceState} {res : Reservation}
    (hres_eq : s1.reservations =
      s.reservations.map (fun r => if r.id == res.id then res else r))
    (hnext : s1.nextId = s.nextId)
    (hend : res.endTime = calculateEndTime res.startTime res.durationMinutes)
    (hconf : ∀ r ∈ s.reservations, r.id ≠ res.id → reservationsConflict r res = false)
    (hInv : EngineInv s) : EngineInv s1 := by
  obtain ⟨⟨hpair, hbound, hendinv⟩, hndb⟩ := hInv
  refine ⟨⟨?_, ?_, ?_⟩, ?_⟩
  · rw [hres_eq, List.pairwise_map]
    refine hpair.imp ?_
    intro a b hab
    by_cases ha : a.id = res.id <;> by_cases hb2 : b.id = res.id <;>
      simp [ha, hb2] <;> omega
  · intro r hr
    rw [hres_eq] at hr
    obtain ⟨r0, hr0, heq⟩ := List.mem_map.mp hr
    rw [hnext]
    by_cases hc : r0.id = res.id
    · have hfr : (if r0.id == res.id then res else r0) = res := by simp [hc]
      rw [hfr] at heq
      subst heq
      have := hbound r0 hr0
      omega
    · have hfr : (if r0.id == res.id then res else r0) = r0 := by simp [hc]
      rw [hfr] at heq
      subst heq
      exact hbound r0 hr0
  · intro r hr
    rw [hres_eq] at hr
    obtain ⟨r0, hr0, heq⟩ := List.mem_map.mp hr
    by_cases hc : r0.id = res.id
    · have hfr : (if r0.id == res.id then res else r0) = res := by simp [hc]
      rw [hfr] at heq
      subst heq
      exact hend
    · have hfr : (if r0.id == res.id then res else r0) = r0 := by simp [hc]
      rw [hfr] at heq
      subst heq
      exact hendinv r0 hr0
  · rw [hres_eq]
    exact noDoubleBooking_replace _ _ _ hndb hconf

theorem create_preserves_inv {cfg : PeakHoursConfig} {s : ServiceState}
    {dto : CreateReservationDto} {s1 : ServiceState} {res : Reservation}
    (h : ReservationService.create cfg s dto = .ok (s1, res)) (hInv : EngineInv s) : EngineInv s1 := by
  obtain ⟨⟨hpair, hbound, hendinv⟩, hndb⟩ := hInv
  obtain ⟨hres_eq, hnext, hid, hstat, hst, het, hdur, hdate, havail⟩ := create_ok_inversion h
  have hfresh : ∀ r ∈ s.reservations, r.id ≠ res.id := by
    intro r hr
    have := hbound r hr
    omega
  refine ⟨⟨?_, ?_, ?_⟩, ?_⟩
  · rw [hres_eq, List.pairwise_append]
    refine ⟨hpair, List.pairwise_singleton _ _, ?_⟩
    intro a ha b hb
    rw [List.mem_singleton] at hb
    subst hb
    exact hfresh a ha
  · intro r hr
    rw [hres_eq, List.mem_append] at hr
    rw [hnext]
    rcases hr with hr | hr
    · have := hbound r hr
      omega
    · rw [List.mem_singleton] at hr
      subst hr
      omega
  · intro r hr
    rw [hres_eq, List.mem_append] at hr
    rcases hr with hr | hr
    · exact hendinv r hr
    · rw [List.mem_singleton] at hr
      subst hr
      rw [het, hst, hdur]
  · rw [hres_eq]
    refine noDoubleBooking_append _ _ hndb hfresh ?_
    intro r hr htab hdate2 hact
    exact isTableAvailable_no_overlap havail r hr htab hdate2 hact
      (fun eid heq => Option.noConfusion heq)

theorem statusChange_conf {s : ServiceState} {reservation res : Reservation}
    (hmem : reservation ∈ s.reservations)
    (hndb : noDoubleBooking s.reservations)
    (hid : res.id = reservation.id)
    (htab : res.tableId = reservation.tableId)
    (hdate : res.reservationDate = reservation.reservationDate)
    (hst : res.startTime = reservation.startTime)
    (het : res.endTime = reservation.endTime)
    (hstat : activeStatus res.status = true →
      activeStatus res.status = activeStatus reservation.status) :
    ∀ r ∈ s.reservations, r.id ≠ res.id → reservationsConflict r res = false := by
  intro r hr _
  cases hact : activeStatus res.status with
  | false => simp [reservationsConflict, hact]
  | true =>
    rw [reservationsConflict_congr hid htab hdate hst het (hstat hact)]
    exact hndb r hr reservation hmem

theorem confirm_preserves_inv {s : ServiceState} {id : Nat} {s1 : ServiceState}
    {res : Reservation} (h : ReservationService.confirm s id = .ok (s1, res))
    (hInv : EngineInv s) : EngineInv s1 := by
  obtain ⟨reservation, hfind, hstat, hres, hres_eq, hnext⟩ := confirm_ok_inversion h
  obtain ⟨hmem, hid_eq⟩ := findById_some_mem hfind
  subst hres
  refine inv_replace hres_eq hnext (hInv.1.2.2 reservation hmem) ?_ hInv
  exact statusChange_conf hmem hInv.2 rfl rfl rfl rfl rfl
    (fun _ => by rw [hstat]; rfl)

theorem markAsSeated_preserves_inv {s : ServiceState} {id : Nat} {s1 : ServiceState}
    {res : Reservation} (h : ReservationService.markAsSeated s id = .ok (s1, res))
    (hInv : EngineInv s) : EngineInv s1 := by
  obtain ⟨reservation, hfind, hstat, hres, hres_eq, hnext⟩ := markAsSeated_ok_inversion h
  obtain ⟨hmem, hid_eq⟩ := findById_some_mem hfind
  subst hres
  refine inv_replace hres_eq hnext (hInv.1.2.2 reservation hmem) ?_ hInv
  exact statusChange_conf hmem hInv.2 rfl rfl rfl rfl rfl
    (fun _ => by rw [hstat]; rfl)

theorem markAsCompleted_preserves_inv {s : ServiceState} {id : Nat} {s1 : ServiceState}
    {res : Reservation} (h : ReservationService.markAsCompleted s id = .ok (s1, res))
    (hInv : EngineInv s) : EngineInv s1 := by
  obtain ⟨reservation, hfind, hstat, hres, hres_eq, hnext⟩ := markAsCompleted_ok_inversion h
  obtain ⟨hmem, hid_eq⟩ := findById_some_mem hfind
  subst hres
  refine inv_replace hres_eq hnext (hInv.1.2.2 reservation hmem) ?_ hInv
  exact statusChange_conf hmem hInv.2 rfl rfl rfl rfl rfl
    (fun hact => by simp [activeStatus] at hact)

theorem cancel_preserves_inv {s : ServiceState} {id : Nat} {reason : Option String}
    {s1 : ServiceState} {res : Reservation}
    (h : ReservationService.cancel s id reason = .ok (s1, res))
    (hInv : EngineInv s) : EngineInv s1 := by
  obtain ⟨reservation, hfind, hstat, hres, hres_eq, hnext⟩ := cancel_ok_inversion h
  obtain ⟨hmem, hid_eq⟩ := findById_some_mem hfind
  subst hres
  refine inv_replace hres_eq hnext (hInv.1.2.2 reservation hmem) ?_ hInv
  exact statusChange_conf hmem hInv.2 rfl rfl rfl rfl rfl
    (fun hact => by simp [activeStatus] at hact)

theorem markAsNoShow_preserves_inv {s : ServiceState} {id : Nat} {s1 : ServiceState}
    {res : Reservation} (h : ReservationService.markAsNoShow s id = .ok (s1, res))
    (hInv : EngineInv s) : EngineInv s1 := by
  obtain ⟨reservation, hfind, hstat, hres, hres_eq, hnext⟩ := markAsNoShow_ok_inversion h
  obtain ⟨hmem, hid_eq⟩ := findById_some_mem hfind
  subst hres
  refine inv_replace hres_eq hnext (hInv.1.2.2 reservation hmem) ?_ hInv
  exact statusChange_conf hmem hInv.2 rfl rfl rfl rfl rfl
    (fun hact => by simp [activeStatus] at hact)

theorem update_preserves_inv {cfg : PeakHoursConfig} {s : ServiceState} {id : Nat}
    {dto : UpdateReservationDto} {s1 : ServiceState} {res : Reservation}
    (h : ReservationService.update cfg s id dto = .ok (s1, res))
    (hInv : EngineInv s) : EngineInv s1 := by
  obtain ⟨reservation, hfind, hmod, hid, hstatus, hst, hdur, hend, hdate, htab,
    hres_eq, hnext, hcheck⟩ := update_ok_inversion h
  obtain ⟨hmem, hid_eq⟩ := findById_some_mem hfind
  refine inv_replace hres_eq hnext hend ?_ hInv
  intro r hr hne
  by_cases hc : (dto.tableId.isSome || dto.startTime.isSome || dto.durationMinutes.isSome ||
      dto.reservationDate.isSome) = true
  · have havail := hcheck hc
    cases hb : reservationsConflict r res with
    | false => rfl
    | true =>
      exfalso
      simp only [reservationsConflict, Bool.and_eq_true, decide_eq_true_eq,
        beq_iff_eq] at hb
      obtain ⟨⟨⟨⟨⟨hbid, hbtab⟩, hbdate⟩, hbact1⟩, hbact2⟩, hbov⟩ := hb
      have hov := isTableAvailable_no_overlap havail r hr hbtab hbdate hbact1 ?_
      · rw [hov] at hbov
        cases hbov
      · intro eid heq2
        injection heq2 with heid
        omega
  · have h1 : dto.tableId = none := by
      cases hx : dto.tableId with
      | none => rfl
      | some v => exact absurd (by simp [hx]) hc
    have h2 : dto.startTime = none := by
      cases hx : dto.startTime with
      | none => rfl
      | some v => exact absurd (by simp [hx]) hc
    have h3 : dto.durationMinutes = none := by
      cases hx : dto.durationMinutes with
      | none => rfl
      | some v => exact absurd (by simp [hx]) hc
    have h4 : dto.reservationDate = none := by
      cases hx : dto.reservationDate with
      | none => rfl
      | some v => exact absurd (by simp [hx]) hc
    rw [h1] at htab
    rw [h2] at hst
    rw [h3] at hdur
    rw [h4] at hdate
    simp only [Option.getD_none] at htab hst hdur hdate
    have het : res.endTime = reservation.endTime := by
      rw [hend, hst, hdur, ← hInv.1.2.2 reservation hmem]
    rw [reservationsConflict_congr hid htab hdate hst het (by rw [hstatus])]
    exact hInv.2 r hr reservation hmem

theorem applyOp_preserves_inv (cfg : PeakHoursConfig) (s : ServiceState) (op : Op)
    (hInv : EngineInv s) : EngineInv (applyOp cfg s op) := by
  cases op with
  | create dto =>
    simp only [applyOp]
    cases hc : ReservationService.create cfg s dto with
    | ok p =>
      obtain ⟨s1, res⟩ := p
      exact create_preserves_inv hc hInv
    | error e => exact hInv
  | update id dto =>
    simp only [applyOp]
    cases hc : ReservationService.update cfg s id dto with
    | ok p =>
      obtain ⟨s1, res⟩ := p
      exact update_preserves_inv hc hInv
    | error e => exact hInv
  | cancel id reason =>
    simp only [applyOp]
    cases hc : ReservationService.cancel s id reason with
    | ok p =>
      obtain ⟨s1, res⟩ := p
      exact cancel_preserves_inv hc hInv
    | error e => exact hInv
  | confirm id =>
    simp only [applyOp]
    cases hc : ReservationService.confirm s id with
    | ok p =>
      obtain ⟨s1, res⟩ := p
      exact confirm_preserves_inv hc hInv
    | error e => exact hInv
  | markAsSeated id =>
    simp only [applyOp]
    cases hc : ReservationService.markAsSeated s id with
    | ok p =>
      obtain ⟨s1, res⟩ := p
      exact markAsSeated_preserves_inv hc hInv
    | error e => exact hInv
  | markAsCompleted id =>
    simp only [applyOp]
    cases hc : ReservationService.markAsCompleted s id with
    | ok p =>
      obtain ⟨s1, res⟩ := p
      exact markAsCompleted_preserves_inv hc hInv
    | error e => exact hInv
  | markAsNoShow id =>
    simp only [applyOp]
    cases hc : ReservationService.markAsNoShow s id with
    | ok p =>
      obtain ⟨s1, res⟩ := p
      exact markAsNoShow_preserves_inv hc hInv
    | error e => exact hInv

theorem applyOps_preserves_inv (cfg : PeakHoursConfig) (s : ServiceState) (ops : List Op)
    (hInv : EngineInv s) : EngineInv (applyOps cfg s ops) := by
  induction ops generalizing s with
  | nil => exact hInv
  | cons op rest ih => exact ih _ (applyOp_preserves_inv cfg s op hInv)

/-- In a conflict-free ledger, a live row passes its own availability
re-check (excluding itself). -/
theorem isTableAvailable_of_inv {s : ServiceState} {id : Nat} {reservation : Reservation}
    (hInv : EngineInv s) (hfind : ReservationService.findById s id = some reservation)
    (hact : activeStatus reservation.status = true) :
    ReservationService.isTableAvailable s.reservations reservation.tableId
      reservation.reservationDate reservation.startTime reservation.endTime (some id) = true := by
  obtain ⟨hmem, hid_eq⟩ := findById_some_mem hfind
  unfold ReservationService.isTableAvailable
  rw [Bool.not_eq_true', List.any_eq_false]
  intro r hr
  rw [List.mem_filter] at hr
  obtain ⟨hrmem, hpred⟩ := hr
  simp only [Bool.and_eq_true, beq_iff_eq, bne_iff_ne] at hpred
  obtain ⟨⟨⟨htab, hdate⟩, hstat⟩, hne⟩ := hpred
  have hconf := hInv.2 r hrmem reservation hmem
  rw [Bool.not_eq_true]
  cases hov : timeRangesOverlap r.startTime r.endTime reservation.startTime
      reservation.endTime with
  | false => rfl
  | true =>
    exfalso
    have : reservationsConflict r reservation = true := by
      simp only [reservationsConflict, Bool.and_eq_true, decide_eq_true_eq, beq_iff_eq]
      refine ⟨⟨⟨⟨⟨?_, htab⟩, hdate⟩, hstat⟩, hact⟩, hov⟩
      omega
    rw [hconf] at this
    cases this

theorem activeStatus_of_canBeModified {r : Reservation}
    (h : r.canBeModified = true) : activeStatus r.status = true := by
  unfold Reservation.canBeModified at h
  unfold activeStatus
  cases hs : r.status <;> simp_all

theorem update_unchecked_fields {dto : UpdateReservationDto}
    (hc : ¬(dto.tableId.isSome || dto.startTime.isSome || dto.durationMinutes.isSome ||
      dto.reservationDate.isSome) = true) :
    dto.tableId = none ∧ dto.startTime = none ∧ dto.durationMinutes = none ∧
      dto.reservationDate = none := by
  refine ⟨?_, ?_, ?_, ?_⟩
  · cases hx : dto.tableId with
    | none => rfl
    | some v => exact absurd (by simp [hx]) hc
  · cases hx : dto.startTime with
    | none => rfl
    | some v => exact absurd (by simp [hx]) hc
  · cases hx : dto.durationMinutes with
    | none => rfl
    | some v => exact absurd (by simp [hx]) hc
  · cases hx : dto.reservationDate with
    | none => rfl
    | some v => exact absurd (by simp [hx]) hc

/-- Claim C1: after any sequence of completed engine calls starting from a
well-formed ledger, no two reservations on the same table and date with
statuses in {PENDING, CONFIRMED, SEATED} have overlapping half-open
minute-of-day windows; and a successful `create` or `update` placed its
reservation only on a table `isTableAvailable` accepted (excluding the
reservation itself on `update`). -/
theorem reservation_no_double_booking (cfg : PeakHoursConfig) (s0 : ServiceState)
    (ops : List Op) (h0 : EngineInv s0) :
    noDoubleBooking (applyOps cfg s0 ops).reservations ∧
      (∀ dto s1 res, ReservationService.create cfg s0 dto = .ok (s1, res) →
        ReservationService.isTableAvailable s0.reservations res.tableId res.reservationDate
          res.startTime res.endTime none = true) ∧
      (∀ id dto s1 res, ReservationService.update cfg s0 id dto = .ok (s1, res) →
        ReservationService.isTableAvailable s0.reservations res.tableId res.reservationDate
          res.startTime res.endTime (some id) = true) := by
  refine ⟨(applyOps_preserves_inv cfg s0 ops h0).2, ?_, ?_⟩
  · intro dto s1 res hc
    exact (create_ok_inversion hc).2.2.2.2.2.2.2.2
  · intro id dto s1 res hu
    obtain ⟨reservation, hfind, hmod, hid, hstatus, hst, hdur, hend, hdate, htab,
      hres_eq, hnext, hcheck⟩ := update_ok_inversion hu
    by_cases hcond : (dto.tableId.isSome || dto.startTime.isSome ||
        dto.durationMinutes.isSome || dto.reservationDate.isSome) = true
    · exact hcheck hcond
    · obtain ⟨h1, h2, h3, h4⟩ := update_unchecked_fields hcond
      obtain ⟨hmem, hid_eq⟩ := findById_some_mem hfind
      rw [h1] at htab
      rw [h2] at hst
      rw [h3] at hdur
      rw [h4] at hdate
      simp only [Option.getD_none] at htab hst hdur hdate
      have het : res.endTime = reservation.endTime := by
        rw [hend, hst, hdur, ← h0.1.2.2 reservation hmem]
      rw [htab, hdate, hst, het]
      exact isTableAvailable_of_inv h0 hfind (activeStatus_of_canBeModified hmod)

theorem reservation_no_double_booking_witness :
    EngineInv demoState ∧
      noDoubleBooking (applyOps demoCfg demoState demoOps).reservations :=
  ⟨by decide, (reservation_no_double_booking demoCfg demoState demoOps (by decide)).1⟩

/-- Claim C2: lifecycle legality: `confirm` succeeds exactly from
PENDING, `markAsSeated` exactly from CONFIRMED, `markAsCompleted`
exactly from SEATED, and `cancel`/`markAsNoShow` exactly from PENDING or
CONFIRMED; every transition attempted from any other status fails with
an invalid-state-transition error carrying the current and target
states, and the failed call leaves the stores (hence the reservation's
status) unchanged.  COMPLETED, CANCELLED and NO_SHOW satisfy none of the
success conditions, so they admit no outgoing transitions. -/
theorem lifecycle_legality (s : ServiceState) (id : Nat) (r : Reservation)
    (hfind : ReservationService.findById s id = some r) :
    ((∃ t, ReservationService.confirm s id = .ok t) ↔ r.status = .pending) ∧
      (r.status ≠ .pending →
        ReservationService.confirm s id =
          .error (.invalidStateTransition r.status .confirmed) ∧
        ∀ cfg, applyOp cfg s (Op.confirm id) = s) ∧
      ((∃ t, ReservationService.markAsSeated s id = .ok t) ↔ r.status = .confirmed) ∧
      (r.status ≠ .confirmed →
        ReservationService.markAsSeated s id =
          .error (.invalidStateTransition r.status .seated) ∧
        ∀ cfg, applyOp cfg s (Op.markAsSeated id) = s) ∧
      ((∃ t, ReservationService.markAsCompleted s id = .ok t) ↔ r.status = .seated) ∧
      (r.status ≠ .seated →
        ReservationService.markAsCompleted s id =
          .error (.invalidStateTransition r.status .completed) ∧
        ∀ cfg, applyOp cfg s (Op.markAsCompleted id) = s) ∧
      (∀ reason, ((∃ t, ReservationService.cancel s id reason = .ok t) ↔
          (r.status = .pending ∨ r.status = .confirmed)) ∧
        (¬(r.status = .pending ∨ r.status = .confirmed) →
          ReservationService.cancel s id reason =
            .error (.invalidStateTransition r.status .cancelled) ∧
          ∀ cfg, applyOp cfg s (Op.cancel id reason) = s)) ∧
      ((∃ t, ReservationService.markAsNoShow s id = .ok t) ↔
        (r.status = .pending ∨ r.status = .confirmed)) ∧
      (¬(r.status = .pending ∨ r.status = .confirmed) →
        ReservationService.markAsNoShow s id =
          .error (.invalidStateTransition r.status .noShow) ∧
        ∀ cfg, applyOp cfg s (Op.markAsNoShow id) = s) := by
  cases hstat : r.status <;>
    simp [ReservationService.confirm, ReservationService.markAsSeated,
      ReservationService.markAsCompleted, ReservationService.cancel,
      ReservationService.markAsNoShow, applyOp, hfind, hstat,
      Reservation.canBeCancelled, Reservation.canBeModified]

theorem lifecycle_legality_witness :
    ReservationService.confirm demoSeatedState 1 =
      .error (.invalidStateTransition .seated .confirmed) :=
  (((lifecycle_legality demoSeatedState 1 demoSeatedRes (by decide)).2.1) (by decide)).1

/-- Claim C3: the peak-hour duration cap is a hard rejection, never a silent
truncation, and durations within the cap (or starts outside the peak
window) pass the check. -/
theorem peak_hour_hard_cap (cfg : PeakHoursConfig) (s : ServiceState)
    (dto : CreateReservationDto)
    (hpeak : cfg.start ≤ dto.startTime.hours ∧ dto.startTime.hours < cfg.«end»)
    (hdur : cfg.maxDuration < dto.durationMinutes) :
    exceptIsOk (ReservationService.create cfg s dto) = false ∧
      ((∃ restaurant, s.restaurants.find? (fun r => r.id == dto.restaurantId) =
          some restaurant ∧ restaurant.isActive = true ∧
          restaurant.isTimeRangeValid dto.startTime
            (calculateEndTime dto.startTime dto.durationMinutes) = true) →
        ReservationService.create cfg s dto = .error .peakHourDurationExceeded) ∧
      (∀ id udto, udto.startTime = some dto.startTime →
        udto.durationMinutes = some dto.durationMinutes →
        exceptIsOk (ReservationService.update cfg s id udto) = false) ∧
      adjustDurationForPeakHours cfg dto.startTime cfg.maxDuration = cfg.maxDuration ∧
      (∀ t d, ¬(cfg.start ≤ t.hours ∧ t.hours < cfg.«end») →
        adjustDurationForPeakHours cfg t d = d) := by
  have hadj : adjustDurationForPeakHours cfg dto.startTime dto.durationMinutes =
      cfg.maxDuration := by
    unfold adjustDurationForPeakHours
    rw [if_pos hpeak]
    omega
  refine ⟨?_, ?_, ?_, ?_, ?_⟩
  · simp only [ReservationService.create]
    split
    · rfl
    · split
      · rfl
      · split
        · rfl
        · rw [hadj, if_pos (by omega)]
          rfl
  · rintro ⟨restaurant, hfindr, hactive, hvalid⟩
    simp only [ReservationService.create, hfindr, hactive, hvalid]
    rw [if_neg (by simp), if_neg (by simp), hadj, if_pos (by omega)]
  · intro id udto hst hdm
    simp only [ReservationService.update, hst, hdm, Option.getD_some]
    split
    · rfl
    · split
      · rfl
      · split
        · rfl
        · split
          · rfl
          · rw [hadj, if_pos (by omega)]
            rfl
  · unfold adjustDurationForPeakHours
    rw [if_pos hpeak]
    omega
  · intro t d hnot
    unfold adjustDurationForPeakHours
    rw [if_neg hnot]

theorem peak_hour_hard_cap_witness :
    exceptIsOk (ReservationService.create demoCfg demoState ⟨1, none, 2, 7, ⟨19, 0⟩, 120⟩)
        = false ∧
      ReservationService.create demoCfg demoState ⟨1, none, 2, 7, ⟨19, 0⟩, 120⟩ =
        .error .peakHourDurationExceeded :=
  ⟨(peak_hour_hard_cap demoCfg demoState ⟨1, none, 2, 7, ⟨19, 0⟩, 120⟩ (by decide)
      (by decide)).1,
    (peak_hour_hard_cap demoCfg demoState ⟨1, none, 2, 7, ⟨19, 0⟩, 120⟩ (by decide)
      (by decide)).2.1 ⟨demoRestaurant, by decide, by decide, by decide⟩⟩

/-- What a successful auto-assignment `create` (no explicit table) did:
it booked exactly the table `findAvailableTable` returned. -/
theorem create_auto_inversion {cfg : PeakHoursConfig} {s : ServiceState}
    {dto : CreateReservationDto} {s1 : ServiceState} {res : Reservation}
    (hnone : dto.tableId = none)
    (h : ReservationService.create cfg s dto = .ok (s1, res)) :
    ∃ t, ReservationService.findAvailableTable s.tables s.reservations dto.restaurantId
        dto.reservationDate dto.startTime (calculateEndTime dto.startTime dto.durationMinutes)
        dto.partySize = some t ∧ res.tableId = t.id := by
  simp only [ReservationService.create] at h
  repeat' split at h
  all_goals try exact Except.noConfusion h
  all_goals simp only [ReservationService.saveNew] at h
  all_goals injection h with h2
  all_goals injection h2 with hs hres
  all_goals subst hs
  all_goals subst hres
  · rename_i x availableTable heqfind
    exact ⟨availableTable, heqfind, rfl⟩
  · rename_i heqsome x table heqt h1 h2 h3
    rw [hnone] at heqsome
    exact Option.noConfusion heqsome

/-- Claim C4: best-fit selection: `findTablesForPartySize` returns
exactly the active tables of the restaurant with
`minCapacity <= partySize <= capacity`, ordered ascending by capacity;
`findOptimalTable` is its first element (`none` when empty) and has
minimal capacity — hence minimal non-negative fit score — among the
accommodating tables; and `create`'s auto-resolution books exactly the
first table of this ordered list that `isTableAvailable` accepts. -/
theorem best_fit_selection (tables : List Table) (restaurantId partySize : Nat) :
    (∀ t, t ∈ TableService.findTablesForPartySize tables restaurantId partySize ↔
      (t ∈ tables ∧ t.restaurantId = restaurantId ∧ t.isActive = true ∧
        t.minCapacity ≤ partySize ∧ partySize ≤ t.capacity)) ∧
      (TableService.findTablesForPartySize tables restaurantId partySize).Pairwise
        (fun t1 t2 => t1.capacity ≤ t2.capacity) ∧
      TableService.findOptimalTable tables restaurantId partySize =
        (TableService.findTablesForPartySize tables restaurantId partySize).head? ∧
      (TableService.findTablesForPartySize tables restaurantId partySize = [] →
        TableService.findOptimalTable tables restaurantId partySize = none) ∧
      (∀ t0, TableService.findOptimalTable tables restaurantId partySize = some t0 →
        t0.canAccommodate partySize = true ∧
        t0.getFitScore partySize = some (t0.capacity - partySize) ∧
        (∀ t ∈ TableService.findTablesForPartySize tables restaurantId partySize,
          t0.capacity ≤ t.capacity)) ∧
      (∀ reservations date startTime endTime,
        ReservationService.findAvailableTable tables reservations restaurantId date
            startTime endTime partySize =
          (TableService.findTablesForPartySize tables restaurantId partySize).find?
            (fun table => ReservationService.isTableAvailable reservations table.id date
              startTime endTime none)) ∧
      (∀ cfg s dto s1 res, s.tables = tables → dto.restaurantId = restaurantId →
        dto.partySize = partySize → dto.tableId = none →
        ReservationService.create cfg s dto = .ok (s1, res) →
        ∃ t, ReservationService.findAvailableTable tables s.reservations restaurantId
            dto.reservationDate dto.startTime
            (calculateEndTime dto.startTime dto.durationMinutes) partySize = some t ∧
          res.tableId = t.id) := by
  have hmem : ∀ t, t ∈ TableService.findTablesForPartySize tables restaurantId partySize ↔
      (t ∈ tables ∧ t.restaurantId = restaurantId ∧ t.isActive = true ∧
        t.minCapacity ≤ partySize ∧ partySize ≤ t.capacity) := by
    intro t
    unfold TableService.findTablesForPartySize
    rw [List.mem_insertionSort, List.mem_filter]
    simp only [Bool.and_eq_true, decide_eq_true_eq, beq_iff_eq]
    tauto
  have hsorted : (TableService.findTablesForPartySize tables restaurantId partySize).Pairwise
      (fun t1 t2 => t1.capacity ≤ t2.capacity) := by
    unfold TableService.findTablesForPartySize
    exact List.sorted_insertionSort (fun t1 t2 => t1.capacity ≤ t2.capacity)
      (tables.filter fun t =>
        t.restaurantId == restaurantId && t.isActive &&
          decide (partySize ≤ t.capacity) && decide (t.minCapacity ≤ partySize))
  refine ⟨hmem, hsorted, rfl, ?_, ?_, ?_, ?_⟩
  · intro hnil
    unfold TableService.findOptimalTable
    rw [hnil]
    rfl
  · intro t0 h0
    unfold TableService.findOptimalTable at h0
    obtain ⟨ys, hys⟩ := List.head?_eq_some_iff.mp h0
    have ht0mem : t0 ∈ TableService.findTablesForPartySize tables restaurantId partySize := by
      rw [hys]
      exact List.mem_cons_self _ _
    obtain ⟨_, _, _, hmin, hmax⟩ := (hmem t0).mp ht0mem
    have hacc : t0.canAccommodate partySize = true := by
      unfold Table.canAccommodate
      simp [hmin, hmax]
    refine ⟨hacc, ?_, ?_⟩
    · unfold Table.getFitScore
      rw [if_pos hacc]
    · intro t ht
      rw [hys] at ht hsorted
      rcases List.mem_cons.mp ht with ht | ht
      · subst ht
        exact Nat.le_refl _
      · exact (List.pairwise_cons.mp hsorted).1 t ht
  · intro reservations date startTime endTime
    rfl
  · intro cfg s dto s1 res hst hrid hps hnone hcreate
    obtain ⟨t, hfind, htab⟩ := create_auto_inversion hnone hcreate
    rw [hst, hrid, hps] at hfind
    exact ⟨t, hfind, htab⟩

/-- Claim C5: slot enumeration: slots start at the opening time, step by the
interval, and are emitted exactly while `start + duration` stays within
the midnight-adjusted closing time; the result is a finite list, and the
10:00-12:00/60/30 instance is exactly the three expected slots. -/
theorem generateTimeSlots_spec (o c : TimeOfDay) (d i : Nat) (hi : 0 < i) :
    generateTimeSlots o c d i =
      (List.range (slotCount (toMinutes o) (adjClose o c) d i)).map
        (fun n => (toTimeString (toMinutes o + i * n),
          toTimeString (toMinutes o + i * n + d))) ∧
      (∀ n, n < slotCount (toMinutes o) (adjClose o c) d i ↔
        toMinutes o + i * n + d ≤ adjClose o c) ∧
      adjClose o c =
        (if toMinutes c < toMinutes o then toMinutes c + 24 * 60 else toMinutes c) ∧
      generateTimeSlots ⟨10, 0⟩ ⟨12, 0⟩ 60 30 =
        [(⟨10, 0⟩, ⟨11, 0⟩), (⟨10, 30⟩, ⟨11, 30⟩), (⟨11, 0⟩, ⟨12, 0⟩)] := by
  refine ⟨generateTimeSlots_eq o c d i hi, ?_, rfl, by decide⟩
  intro n
  unfold slotCount
  by_cases hle : toMinutes o + d ≤ adjClose o c
  · rw [if_pos hle, Nat.lt_succ_iff, Nat.le_div_iff_mul_le hi]
    have hcomm : n * i = i * n := Nat.mul_comm n i
    rw [hcomm]
    generalize i * n = x
    omega
  · rw [if_neg hle]
    constructor
    · omega
    · intro hx
      exfalso
      have : 0 ≤ i * n := Nat.zero_le _
      generalize hg : i * n = x at hx
      omega

theorem generateTimeSlots_spec_witness :
    (0 : Nat) < 30 ∧
      generateTimeSlots ⟨10, 0⟩ ⟨12, 0⟩ 60 30 =
        [(⟨10, 0⟩, ⟨11, 0⟩), (⟨10, 30⟩, ⟨11, 30⟩), (⟨11, 0⟩, ⟨12, 0⟩)] :=
  ⟨by decide, (generateTimeSlots_spec ⟨10, 0⟩ ⟨12, 0⟩ 60 30 (by decide)).2.2.2⟩

/-- With pairwise-distinct ids, the primary-key lookup of a member row
returns exactly that row. -/
theorem find?_id_of_nodup {entries : List Waitlist} {e : Waitlist}
    (hnodup : (entries.map (fun w => w.id)).Nodup) (hmem : e ∈ entries) :
    entries.find? (fun w => w.id == e.id) = some e := by
  induction entries with
  | nil => cases hmem
  | cons a rest ih =>
    rw [List.map_cons, List.nodup_cons] at hnodup
    obtain ⟨hna, hnrest⟩ := hnodup
    rcases List.mem_cons.mp hmem with he | he
    · subst he
      exact List.find?_cons_of_pos _ (by simp)
    · have ha : ¬((fun w => w.id == e.id) a = true) := by
        simp only [beq_iff_eq]
        intro heq
        exact hna (heq ▸ List.mem_map_of_mem (fun w => w.id) he)
      exact (List.find?_cons_of_neg rest ha).trans (ih hnrest he)

/-- Claim C6: FIFO waitlist promotion: `processWaitlistForCancellation`
considers exactly the WAITING entries of the restaurant and date whose
preferred window contains the freed `[start, end)` window and whose
party size fits the freed capacity, ordered by creation time ascending;
when none match it returns `null` and touches no entry, and otherwise it
transitions only the earliest-created candidate to NOTIFIED, increments
its notification count by one, stamps `lastNotifiedAt`, fires exactly
one waitlist notification for the offered slot, and returns the
candidate. -/
theorem waitlist_fifo_promotion (entries : List Waitlist) (now restaurantId date : Nat)
    (startTime endTime : TimeOfDay) (tableCapacity : Nat)
    (hcap : 0 < tableCapacity)
    (hnodup : (entries.map (fun w => w.id)).Nodup) :
    (∀ w, w ∈ WaitlistService.getWaitingEntriesForSlot entries restaurantId date startTime
        endTime (some tableCapacity) ↔
      (w ∈ entries ∧ w.restaurantId = restaurantId ∧ w.requestedDate = date ∧
        w.status = .waiting ∧ toMinutes w.preferredStartTime ≤ toMinutes startTime ∧
        toMinutes endTime ≤ toMinutes w.preferredEndTime ∧
        w.partySize ≤ tableCapacity)) ∧
      (WaitlistService.getWaitingEntriesForSlot entries restaurantId date startTime endTime
        (some tableCapacity)).Pairwise (fun w1 w2 => w1.createdAt ≤ w2.createdAt) ∧
      (WaitlistService.getWaitingEntriesForSlot entries restaurantId date startTime endTime
          (some tableCapacity) = [] →
        WaitlistService.processWaitlistForCancellation entries now restaurantId date
          startTime endTime tableCapacity = .ok (entries, none, [])) ∧
      (∀ e rest, WaitlistService.getWaitingEntriesForSlot entries restaurantId date startTime
          endTime (some tableCapacity) = e :: rest →
        (∀ w ∈ WaitlistService.getWaitingEntriesForSlot entries restaurantId date startTime
            endTime (some tableCapacity), e.createdAt ≤ w.createdAt) ∧
        WaitlistService.processWaitlistForCancellation entries now restaurantId date
            startTime endTime tableCapacity =
          .ok (WaitlistService.saveWaitlist entries
              { e with
                status := .notified,
                notificationCount := e.notificationCount + 1,
                lastNotifiedAt := some now },
            some e, [(e.id, ⟨date, startTime, endTime⟩)])) := by
  have hne : tableCapacity ≠ 0 := Nat.pos_iff_ne_zero.mp hcap
  have hmemc : ∀ w, w ∈ WaitlistService.getWaitingEntriesForSlot entries restaurantId date
      startTime endTime (some tableCapacity) ↔
      (w ∈ entries ∧ w.restaurantId = restaurantId ∧ w.requestedDate = date ∧
        w.status = .waiting ∧ toMinutes w.preferredStartTime ≤ toMinutes startTime ∧
        toMinutes endTime ≤ toMinutes w.preferredEndTime ∧
        w.partySize ≤ tableCapacity) := by
    intro w
    unfold WaitlistService.getWaitingEntriesForSlot
    rw [List.mem_insertionSort, List.mem_filter]
    simp only [Bool.and_eq_true, decide_eq_true_eq, beq_iff_eq, if_pos hne]
    tauto
  have hsorted : (WaitlistService.getWaitingEntriesForSlot entries restaurantId date
      startTime endTime (some tableCapacity)).Pairwise
      (fun w1 w2 => w1.createdAt ≤ w2.createdAt) := by
    unfold WaitlistService.getWaitingEntriesForSlot
    exact List.sorted_insertionSort (fun w1 w2 => w1.createdAt ≤ w2.createdAt)
      (entries.filter fun w =>
        w.restaurantId == restaurantId && w.requestedDate == date &&
          w.status == .waiting &&
          decide (toMinutes w.preferredStartTime ≤ toMinutes startTime) &&
          decide (toMinutes endTime ≤ toMinutes w.preferredEndTime) &&
          (match some tableCapacity with
           | some p => if p ≠ 0 then decide (w.partySize ≤ p) else true
           | none => true))
  refine ⟨hmemc, hsorted, ?_, ?_⟩
  · intro hnil
    unfold WaitlistService.processWaitlistForCancellation
    rw [hnil]
  · intro e rest hcons
    have hemem : e ∈ WaitlistService.getWaitingEntriesForSlot entries restaurantId date
        startTime endTime (some tableCapacity) := by
      rw [hcons]
      exact List.mem_cons_self _ _
    obtain ⟨heent, _, _, hewait, _, _, _⟩ := (hmemc e).mp hemem
    constructor
    · intro w hw
      rw [hcons] at hw hsorted
      rcases List.mem_cons.mp hw with hw | hw
      · subst hw
        exact Nat.le_refl _
      · exact (List.pairwise_cons.mp hsorted).1 w hw
    · have hnotif : e.canBeNotified = true := by
        unfold Waitlist.canBeNotified
        rw [hewait]
        decide
      have hnotify : WaitlistService.notifyAvailability entries now e.id
          ⟨date, startTime, endTime⟩ =
          .ok (WaitlistService.saveWaitlist entries
              { e with
                status := .notified,
                notificationCount := e.notificationCount + 1,
                lastNotifiedAt := some now },
            { e with
              status := .notified,
              notificationCount := e.notificationCount + 1,
              lastNotifiedAt := some now },
            [(e.id, ⟨date, startTime, endTime⟩)]) := by
        unfold WaitlistService.notifyAvailability
        rw [find?_id_of_nodup hnodup heent]
        simp [hnotif]
      unfold WaitlistService.processWaitlistForCancellation
      rw [hcons]
      simp only [hnotify]

theorem waitlist_fifo_promotion_witness :
    WaitlistService.processWaitlistForCancellation demoWaitlist 99 1 7 ⟨19, 0⟩ ⟨20, 30⟩ 4 =
      .ok (WaitlistService.saveWaitlist demoWaitlist
          { demoW1 with
            status := .notified,
            notificationCount := demoW1.notificationCount + 1,
            lastNotifiedAt := some 99 },
        some demoW1, [(demoW1.id, ⟨7, ⟨19, 0⟩, ⟨20, 30⟩⟩)]) :=
  ((waitlist_fifo_promotion demoWaitlist 99 1 7 ⟨19, 0⟩ ⟨20, 30⟩ 4 (by decide)
      (by decide)).2.2.2 demoW1 [demoW2] (by decide)).2

/-- Claim C7: a date-changing update leaves the old date's cached availability
in place: the source compares `dto.reservationDate` against the
reservation's date only after `Object.assign` overwrote it, so the guard
is always false and only the new date is invalidated. -/
theorem update_cache_invalidation_bug :
    (ReservationService.update demoCfg c7State 1 c7Dto).toOption.map
        (fun p => (p.2.reservationDate, p.2.id,
          CacheService.getAvailability p.1.cache 1 5 2 90,
          CacheService.getAvailability p.1.cache 1 6 2 90)) =
      some (6, 1, some c7CacheVal, none) := by decide

/-- Claim C8 counterexample: with no accommodating table, `getAvailability`
returns the empty result WITHOUT writing it to the cache — the state is
returned unchanged and an immediate identical lookup still misses. -/
theorem availability_empty_not_cached_counterexample :
    (ReservationService.getAvailability c8State 1 7 2 90).toOption =
      some (c8State, ⟨7, 2, 90, [], []⟩) ∧
      CacheService.getAvailability c8State.cache 1 7 2 90 = none := by decide

/-- Claim C8 amended: the empty-eligible short-circuit returns an empty result
and leaves the state (hence the cache) untouched; the result is NOT
cached, so a repeated identical query recomputes instead of being served
from the cache. -/
theorem availability_empty_short_circuit (s : ServiceState)
    (restaurantId date partySize durationMinutes : Nat) (restaurant : Restaurant)
    (hmiss : CacheService.getAvailability s.cache restaurantId date partySize
      durationMinutes = none)
    (hfound : s.restaurants.find? (fun r => r.id == restaurantId) = some restaurant)
    (hempty : TableService.findTablesForPartySize s.tables restaurantId partySize = []) :
    ReservationService.getAvailability s restaurantId date partySize durationMinutes =
      .ok (s, ⟨date, partySize, durationMinutes, [], []⟩) := by
  unfold ReservationService.getAvailability
  rw [hmiss, hfound, hempty]
  rfl

theorem availability_empty_short_circuit_witness :
    ReservationService.getAvailability c8State 1 7 2 90 =
      .ok (c8State, ⟨7, 2, 90, [], []⟩) :=
  availability_empty_short_circuit c8State 1 7 2 90 demoRestaurant (by decide) (by decide)
    (by decide)

/-- Claim C9 counterexample: `convertToReservation` performs no status check:
a CANCELLED entry is converted to SEATED and linked all the same. -/
theorem convertToReservation_no_precondition_counterexample :
    c9Entry.status = .cancelled ∧ c9Entry.isValid = false ∧
      (WaitlistService.convertToReservation [c9Entry] 1 42).toOption =
        some ([{ c9Entry with status := .seated, convertedReservationId := some 42 }],
          { c9Entry with status := .seated, convertedReservationId := some 42 }) := by
  decide

/-- Claim C9 amended: `convertToReservation` links any existing entry
unconditionally — it sets the status to SEATED and records the
reservation id regardless of the entry's current status. -/
theorem convertToReservation_spec (entries : List Waitlist) (id reservationId : Nat)
    (w : Waitlist) (hfind : entries.find? (fun x => x.id == id) = some w) :
    WaitlistService.convertToReservation entries id reservationId =
      .ok (WaitlistService.saveWaitlist entries
          { w with status := .seated, convertedReservationId := some reservationId },
        { w with status := .seated, convertedReservationId := some reservationId }) := by
  unfold WaitlistService.convertToReservation
  rw [hfind]

theorem convertToReservation_spec_witness :
    WaitlistService.convertToReservation [c9Entry] 1 42 =
      .ok (WaitlistService.saveWaitlist [c9Entry]
          { c9Entry with status := .seated, convertedReservationId := some 42 },
        { c9Entry with status := .seated, convertedReservationId := some 42 }) :=
  convertToReservation_spec [c9Entry] 1 42 c9Entry (by decide)

/-- Claim C10: the midnight-wrap blind spot: a reservation 23:00+120min is
stored with endTime 01:00 (numerically before its start), the raw
minutes-of-day overlap test misses the real overlap with 23:30+60min,
`isTableAvailable` calls the table free, and both reservations are
created on the same table and date although their true time windows
overlap across midnight. -/
theorem midnight_wrap_blind_spot :
    calculateEndTime ⟨23, 0⟩ 120 = ⟨1, 0⟩ ∧
      calculateEndTime ⟨23, 30⟩ 60 = ⟨0, 30⟩ ∧
      toMinutes (calculateEndTime ⟨23, 0⟩ 120) < toMinutes ⟨23, 0⟩ ∧
      timeRangesOverlap ⟨23, 0⟩ ⟨1, 0⟩ ⟨23, 30⟩ ⟨0, 30⟩ = false ∧
      exceptIsOk (ReservationService.create demoCfg c10State c10Dto1) = true ∧
      ReservationService.isTableAvailable c10State1.reservations 2 7 ⟨23, 30⟩ ⟨0, 30⟩
        none = true ∧
      exceptIsOk (ReservationService.create demoCfg c10State1 c10Dto2) = true ∧
      toMinutes ⟨23, 0⟩ < toMinutes ⟨23, 30⟩ + 60 ∧
      toMinutes ⟨23, 30⟩ < toMinutes ⟨23, 0⟩ + 120 := by decide
